import Mathlib

/-!
Shallow embedding of the Home Assistant WebSocket client
(`api_client/client.py`, class `HassClient`) used to check the
specification's claims about session management, liveness probing,
request correlation and cache maintenance.

JSON values are modelled by the mutual inductive `JVal`/`JList`/`JObj`.
The client's mutable attributes are gathered in `ClientState`; every
method of the source becomes a pure function from a state (plus the
relevant input) to a new state together with the list of frames written
to the socket.  Exceptions raised by the Python code (`RuntimeError` in
`send_message`, `KeyError`/`TypeError` on impossible inputs) are
modelled with `Except Err`.  Wall-clock times are integers, the
nondeterministic outcome of opening a socket is an explicit `Bool`
oracle, and user-supplied response callbacks (which the repository only
uses as pure observers of the response) are modelled by the
defunctionalised `Callback` type.
-/

/-! JSON values, as produced by `json.loads`.  Numbers are modelled as
integers (no claim involves fractional values). -/

mutual
inductive JVal where
  | null : JVal
  | bool (b : Bool) : JVal
  | num (n : Int) : JVal
  | str (s : String) : JVal
  | arr (elems : JList) : JVal
  | obj (fields : JObj) : JVal
  deriving DecidableEq
inductive JList where
  | nil : JList
  | cons (hd : JVal) (tl : JList) : JList
  deriving DecidableEq
inductive JObj where
  | nil : JObj
  | cons (k : String) (v : JVal) (tl : JObj) : JObj
  deriving DecidableEq
end

/-- Converts a `JList` to an ordinary Lean list. -/
def JList.toList : JList → List JVal
  | .nil => []
  | .cons h t => h :: t.toList

/-- Builds a `JObj` from a list of key/value pairs (in order). -/
def mkObj : List (String × JVal) → JObj
  | [] => .nil
  | (k, v) :: rest => .cons k v (mkObj rest)

/-- Builds a `JList` from a Lean list. -/
def mkArr : List JVal → JList
  | [] => .nil
  | v :: rest => .cons v (mkArr rest)

/-- Python `dict.get(k)` on a JSON object: first binding wins, `None`
(here `none`) if the key is absent.  On a non-object the Python code
would raise `AttributeError`; the claims never reach that case and it
is mapped to `none`. -/
def jget (v : JVal) (k : String) : Option JVal :=
  match v with
  | .obj fields => jgetObj fields k
  | _ => none
where
  jgetObj : JObj → String → Option JVal
    | .nil, _ => none
    | .cons k' v' rest, k => if k' = k then some v' else jgetObj rest k

/-- Python truthiness of a JSON value. -/
def truthy : JVal → Bool
  | .null => false
  | .bool b => b
  | .num n => n ≠ 0
  | .str s => ¬ s.isEmpty
  | .arr .nil => false
  | .arr (.cons _ _) => true
  | .obj .nil => false
  | .obj (.cons _ _ _) => true

/-- Python truthiness of `dict.get`'s result (`None` is falsy). -/
def truthyO : Option JVal → Bool
  | none => false
  | some v => truthy v

/-- Association-list lookup (Python dict read). -/
def alookup {κ α : Type} [DecidableEq κ] : List (κ × α) → κ → Option α
  | [], _ => none
  | (k', v) :: rest, k => if k' = k then some v else alookup rest k

/-- Association-list write (Python `d[k] = v`): replaces in place if the
key is present, appends otherwise. -/
def aset {κ α : Type} [DecidableEq κ] : List (κ × α) → κ → α → List (κ × α)
  | [], k, v => [(k, v)]
  | (k', v') :: rest, k, v =>
    if k' = k then (k', v) :: rest else (k', v') :: aset rest k v

/-- Association-list removal (Python `d.pop(k)`). -/
def aerase {κ α : Type} [DecidableEq κ] : List (κ × α) → κ → List (κ × α)
  | [], _ => []
  | (k', v') :: rest, k => if k' = k then rest else (k', v') :: aerase rest k

/-- Tests whether the first char list is a leading segment of the second. -/
def leadsWith : List Char → List Char → Bool
  | [], _ => true
  | _ :: _, [] => false
  | a :: as, b :: bs => a = b && leadsWith as bs

/-- Worker for `pyReplace`; the fuel argument makes the recursion
structural and is initialised to the string length, which the scan can
never exhaust. -/
def replChars (old new : List Char) : Nat → List Char → List Char
  | 0, s => s
  | _ + 1, [] => []
  | fuel + 1, c :: rest =>
    if old ≠ [] && leadsWith old (c :: rest) then
      new ++ replChars old new fuel ((c :: rest).drop old.length)
    else
      c :: replChars old new fuel rest

/-- Python `str.replace`: replaces every non-overlapping occurrence,
scanning left to right. -/
def pyReplace (s old new : String) : String :=
  ⟨replChars old.data new.data s.data.length s.data⟩

/-- Python `str.endswith`. -/
def pyEndsWith (s suffix : String) : Bool :=
  decide (suffix.length ≤ s.length) &&
    decide (s.data.drop (s.length - suffix.length) = suffix.data)

/-- The module-level REGISTRIES table of `client.py`: registry name to
the ID field its records use. -/
def REGISTRIES : List (String × String) :=
  [("entity_registry", "entity_id"),
   ("device_registry", "id"),
   ("area_registry", "area_id"),
   ("label_registry", "id"),
   ("floor_registry", "floor_id")]

/-- A frame written to the socket, before serialisation: the Python dict
handed to `ws.send` (with the assigned `id` entry already inserted for
correlated requests). -/
abbrev Payload := List (String × JVal)

/-- Errors the modelled code can raise: the two `RuntimeError`s of
`send_message`, plus `KeyError`/`TypeError` for the defensive cases the
protocol never produces. -/
inductive Err where
  | notConnected : Err
  | notAuthenticated : Err
  | keyError : Err
  | typeError : Err
  deriving DecidableEq

/-- Defunctionalised response callbacks.  The named constructors are the
closures `client.py` itself registers; `userCB` stands for a
caller-supplied callback, which the repository only uses to observe the
response, so it is modelled as leaving the client state unchanged. -/
inductive Callback where
  | getStatesCB : Callback
  | registryListCB (registry_name : String) : Callback
  | servicesCB : Callback
  | updateRegistryCB (registry : String) (hasUser : Bool) : Callback
  | userCB (tag : Nat) : Callback
  deriving DecidableEq

/-- The `self.store` dict.  Its keys split into the registry names (from
`REGISTRIES`), the `"states"` key, and the `"services"` key added by the
`get_services` callback (`none` while the key is absent); they are
disjoint, so the dict is modelled as a three-field structure.  Registry
and state mappings are keyed by the JSON value of the record's id
field. -/
structure Store where
  registries : List (String × List (JVal × JVal))
  states : List (JVal × JVal)
  services : Option JVal
  deriving DecidableEq

/-- The mutable attributes of a `HassClient` instance.  `ws` is whether
a connection handle is present (`self._ws is not None`); thread handles
are not modelled. -/
structure ClientState where
  token : String
  ws : Bool
  stop_event : Bool
  current_id : Int
  callbacks : List (Int × Callback)
  last_ping_id : Option Int
  ping_interval : Int
  last_ping_time : Int
  authenticated : Bool
  manual_stop : Bool
  store : Store
  deriving DecidableEq

/-- Result of `HassClient.send_message`: the state after the call, the
frames actually written to the socket, and the returned id or the
raised `RuntimeError`. -/
structure SendResult where
  state : ClientState
  wire : List Payload
  ret : Except Err Int

namespace HassClient

/-- Sends a JSON message (`HassClient.send_message`): refuses while no
connection handle or not authenticated; otherwise assigns the next id,
registers the optional callback and writes the payload. -/
def send_message (st : ClientState) (payload : Payload) (cb : Option Callback) :
    SendResult :=
  if st.ws = false then ⟨st, [], .error .notConnected⟩
  else if st.authenticated = false then ⟨st, [], .error .notAuthenticated⟩
  else
    let msg_id := st.current_id
    let st1 := { st with current_id := st.current_id + 1 }
    let payload1 := aset payload "id" (.num msg_id)
    let st2 :=
      match cb with
      | some c => { st1 with callbacks := aset st1.callbacks msg_id c }
      | none => st1
    ⟨st2, [payload1], .ok msg_id⟩

/-- `send_message` in exception-propagating form, for composing the
calls other methods make. -/
def sendE (st : ClientState) (payload : Payload) (cb : Option Callback) :
    Except Err (ClientState × Int × List Payload) :=
  match send_message st payload cb with
  | ⟨st1, w, .ok i⟩ => .ok (st1, i, w)
  | ⟨_, _, .error e⟩ => .error e

/-- `HassClient._close_ws`: drops the handle and clears the
authenticated flag; idempotent. -/
def close_ws (st : ClientState) : ClientState :=
  { st with ws := false, authenticated := false }

/-- `HassClient.stop`: sets the manual-stop flag and the stop event,
clears the authenticated flag and closes the socket.  (Thread joins are
not modelled.) -/
def stop (st : ClientState) : ClientState :=
  close_ws { st with manual_stop := true, stop_event := true, authenticated := false }

/-- `HassClient._attempt_reconnect`: closes any existing socket, gives
up if the manual-stop flag is set, otherwise tries to open a new one.
`connectOk` is the oracle for whether `create_connection` succeeds; on
success the outstanding ping id is reset, on failure the handle stays
absent. -/
def attempt_reconnect (st : ClientState) (connectOk : Bool) : ClientState :=
  let st1 := close_ws st
  if st1.manual_stop = true then st1
  else if connectOk then
    { st1 with authenticated := false, ws := true, last_ping_id := none }
  else
    close_ws { st1 with authenticated := false }

/-- Iterates `attempt_reconnect` over a list of connection-outcome
oracles: the reconnect steps a run performs after some point. -/
def reconnectIter (st : ClientState) : List Bool → ClientState
  | [] => st
  | ok :: rest => reconnectIter (attempt_reconnect st ok) rest

/-- `HassClient._send_auth`: when a handle is present, clears the
authenticated flag and writes the auth frame with the stored token. -/
def send_auth (st : ClientState) : ClientState × List Payload :=
  if st.ws then
    ({ st with authenticated := false },
     [[("type", .str "auth"), ("access_token", .str st.token)]])
  else (st, [])

/-- `HassClient._get_states` (the request half): sends `get_states`
with the states-handling callback. -/
def get_statesE (st : ClientState) : Except Err (ClientState × List Payload) :=
  match sendE st [("type", .str "get_states")] (some .getStatesCB) with
  | .ok (st1, _, w) => .ok (st1, w)
  | .error e => .error e

/-- `HassClient._handle_get_states`: rebuilds the `"states"` mapping
wholesale from the result list, keyed by each record's `entity_id`
(records without one are skipped). -/
def handle_get_states (msg : JVal) (st : ClientState) : ClientState :=
  let result :=
    match jget msg "result" with
    | some (.arr l) => l.toList
    | _ => []
  let new_states :=
    result.foldl
      (fun acc item =>
        match jget item "entity_id" with
        | some eid => if truthy eid then aset acc eid item else acc
        | none => acc)
      []
  { st with store := { st.store with states := new_states } }

/-- Builds the fresh registry mapping of `refresh_registry`'s
`on_list_result`, keyed by the registry's id field; items whose id field
is missing or falsy are skipped. -/
def buildRegMap (id_field : String) (items : List JVal) : List (JVal × JVal) :=
  items.foldl
    (fun acc item =>
      match jget item id_field with
      | some rid => if truthy rid then aset acc rid item else acc
      | none => acc)
    []

/-- `on_list_result` (the callback registered by
`HassClient.refresh_registry`): returns unchanged when
`msg.get("result")` is falsy (absent, or an empty list); otherwise
replaces the registry's mapping wholesale.  A truthy non-list result
cannot come back from a `config/<registry>/list` call and is a no-op
here. -/
def on_list_result (id_field registry_name : String) (msg : JVal) (st : ClientState) :
    ClientState :=
  if truthyO (jget msg "result") = false then st
  else
    match jget msg "result" with
    | some (.arr items) =>
      { st with store :=
          { st.store with registries := (aset st.store.registries registry_name
              (buildRegMap id_field items.toList)) } }
    | _ => st

/-- `HassClient.refresh_registry` (the request half): sends the listing
request for a registry, registering its list callback. -/
def refresh_registryE (st : ClientState) (registry_name : String) :
    Except Err (ClientState × List Payload) :=
  match sendE st [("type", .str ("config/" ++ registry_name ++ "/list"))]
      (some (.registryListCB registry_name)) with
  | .ok (st1, _, w) => .ok (st1, w)
  | .error e => .error e

/-- Runs a registered callback on a response frame.  `registryListCB`
looks the id field up in `REGISTRIES` as the Python closure does (a
missing entry would be a `KeyError`, impossible for the names the code
registers); `updateRegistryCB` re-requests the registry listing;
user-supplied callbacks observe the response without touching client
state. -/
def runCallback (cb : Callback) (msg : JVal) (st : ClientState) :
    Except Err (ClientState × List Payload) :=
  match cb with
  | .getStatesCB => .ok (handle_get_states msg st, [])
  | .registryListCB rn =>
    match alookup REGISTRIES rn with
    | some idf => .ok (on_list_result idf rn msg st, [])
    | none => .error .keyError
  | .servicesCB =>
    .ok ({ st with store := ({ st.store with
            services := some ((jget msg "result").getD (.obj .nil)) }) }, [])
  | .updateRegistryCB rn _ =>
    match refresh_registryE st rn with
    | .ok (st1, w) => .ok (st1, w)
    | .error e => .error e
  | .userCB _ => .ok (st, [])

/-- The registry-refresh loop of `HassClient._post_auth_init`, over an
arbitrary REGISTRIES table. -/
def refreshAllG (regs : List (String × String)) (st : ClientState) :
    Except Err (ClientState × List Payload) :=
  match regs with
  | [] => .ok (st, [])
  | (rn, _) :: rest =>
    match refresh_registryE st rn with
    | .error e => .error e
    | .ok (st1, w1) =>
      match refreshAllG rest st1 with
      | .error e => .error e
      | .ok (st2, w2) => .ok (st2, w1 ++ w2)

/-- `HassClient._post_auth_init` over an arbitrary REGISTRIES table:
marks the session authenticated, subscribes to events, refreshes each
configured registry, requests the state snapshot, then the service
catalog. -/
def post_auth_initG (regs : List (String × String)) (st : ClientState) :
    Except Err (ClientState × List Payload) :=
  let st0 := { st with authenticated := true }
  match sendE st0 [("type", .str "subscribe_events")] none with
  | .error e => .error e
  | .ok (st1, _, w1) =>
    match refreshAllG regs st1 with
    | .error e => .error e
    | .ok (st2, w2) =>
      match get_statesE st2 with
      | .error e => .error e
      | .ok (st3, w3) =>
        match sendE st3 [("type", .str "get_services")] (some .servicesCB) with
        | .error e => .error e
        | .ok (st4, _, w4) => .ok (st4, w1 ++ w2 ++ w3 ++ w4)

/-- `HassClient._post_auth_init` with the source's REGISTRIES table. -/
def post_auth_init (st : ClientState) : Except Err (ClientState × List Payload) :=
  post_auth_initG REGISTRIES st

/-- `HassClient._handle_state_changed_event`: overwrites the one states
entry for the event's entity, unless the entity id is missing/falsy or
the new state is `None`. -/
def handle_state_changed_event (event_obj : JVal) (st : ClientState) : ClientState :=
  let data := (jget event_obj "data").getD (.obj .nil)
  match jget data "entity_id" with
  | none => st
  | some eid =>
    if truthy eid = false then st
    else
      match jget data "new_state" with
      | none => st
      | some ns =>
        if ns = .null then st
        else { st with store := { st.store with states := aset st.store.states eid ns } }

/-- `HassClient._handle_event`: a `<name>_registry_updated` event for a
known registry triggers that registry's refresh (plus a state resync
for the entity registry); `state_changed` updates one state entry;
recorder statistics events and everything else are ignored.  A truthy
non-string `event_type` would make the Python `endswith` call raise
`TypeError`. -/
def handle_event (st : ClientState) (data : JVal) :
    Except Err (ClientState × List Payload) :=
  let event_obj := (jget data "event").getD (.obj .nil)
  match jget event_obj "event_type" with
  | some (.str s) =>
    if s.isEmpty then .ok (st, [])
    else if pyEndsWith s "_registry_updated" then
      let registry_name := pyReplace s "_updated" ""
      if (alookup REGISTRIES registry_name).isSome then
        match refresh_registryE st registry_name with
        | .error e => .error e
        | .ok (st1, w1) =>
          if registry_name = "entity_registry" then
            match get_statesE st1 with
            | .error e => .error e
            | .ok (st2, w2) => .ok (st2, w1 ++ w2)
          else .ok (st1, w1)
      else .ok (st, [])
    else if s = "state_changed" then
      .ok (handle_state_changed_event event_obj st, [])
    else .ok (st, [])
  | some v => if truthy v then .error .typeError else .ok (st, [])
  | none => .ok (st, [])

/-- The result of Python's `dict.get("id")` as a callback-map key:
only an integer id can match a registered callback. -/
def numId : Option JVal → Option Int
  | some (.num n) => some n
  | _ => none

/-- Pops and runs the callback registered for a frame's id, if any
(`cb = self._callbacks.pop(msg_id); cb(data)`); otherwise leaves the
state unchanged. -/
def dispatchById (st : ClientState) (data : JVal) :
    Except Err (ClientState × List Payload) :=
  match numId (jget data "id") with
  | some i =>
    match alookup st.callbacks i with
    | some cb => runCallback cb data { st with callbacks := aerase st.callbacks i }
    | none => .ok (st, [])
  | none => .ok (st, [])

/-- `HassClient._handle_message` on a frame that parsed as JSON,
classified by its `type` field exactly as the source's if-chain. -/
def handle_data (st : ClientState) (data : JVal) :
    Except Err (ClientState × List Payload) :=
  let msg_type := jget data "type"
  if msg_type = some (.str "auth_required") then .ok (send_auth st)
  else if msg_type = some (.str "auth_ok") then post_auth_init st
  else if msg_type = some (.str "auth_invalid") then .ok (stop st, [])
  else if msg_type = some (.str "pong") then
    match dispatchById st data with
    | .error e => .error e
    | .ok (st1, w) => .ok ({ st1 with last_ping_id := none }, w)
  else if msg_type = some (.str "result") then
    if truthyO (jget data "success") then dispatchById st data
    else .ok (st, [])
  else if msg_type = some (.str "event") then handle_event st data
  else dispatchById st data

/-- `HassClient._handle_message`: `none` stands for a payload that
failed to parse as JSON, which is logged and discarded. -/
def handle_message (st : ClientState) (raw : Option JVal) :
    Except Err (ClientState × List Payload) :=
  match raw with
  | none => .ok (st, [])
  | some data => handle_data st data

/-- One pass of the `HassClient._ping_loop` body, at wall-clock time
`now`: reconnect proactively when no handle is present; when the probe
interval has elapsed on an authenticated connection, reconnect if the
previous ping is still unanswered, otherwise send a fresh ping.
Returns the new state, the pings written, and the number of
`_attempt_reconnect` calls made. -/
def ping_tick (st : ClientState) (now : Int) (connectOk : Bool) :
    ClientState × List Payload × Nat :=
  if st.ws = false then (attempt_reconnect st connectOk, [], 1)
  else if st.ping_interval ≤ now - st.last_ping_time ∧ st.authenticated = true then
    let st1 := { st with last_ping_time := now }
    match st1.last_ping_id with
    | some _ => (attempt_reconnect st1 connectOk, [], 1)
    | none =>
      match sendE st1 [("type", .str "ping")] none with
      | .ok (st2, i, w) => ({ st2 with last_ping_id := some i }, w, 0)
      | .error _ => (st1, [], 0)
  else (st, [], 0)

/-- `HassClient.update_registry`: sends the update request, registering
the refresh-then-user-callback closure. -/
def update_registryE (st : ClientState) (registry : String) (kwargs : Payload)
    (hasUser : Bool) : Except Err (ClientState × Int × List Payload) :=
  sendE st (("type", JVal.str ("config/" ++ registry ++ "/update")) :: kwargs)
    (some (.updateRegistryCB registry hasUser))

end HassClient

/-- The `type` field of an outbound payload, when it is a string. -/
def typeOf (p : Payload) : Option String :=
  match alookup p "type" with
  | some (JVal.str s) => some s
  | _ => none

/-- How many of the written frames carry the given `type`. -/
def countType (w : List Payload) (t : String) : Nat :=
  (w.filterMap typeOf).count t

/-- An empty local store. -/
def store0 : Store := ⟨[], [], none⟩

/-- A connected, authenticated session with no pending requests. -/
def readyState : ClientState :=
  ⟨"tok", true, false, 1, [], none, 10, 0, true, false, store0⟩

/-- A session whose probe tracker holds outstanding ping id 5. -/
def pongState : ClientState := { readyState with last_ping_id := some 5 }

/-- A pong frame whose id does not match the outstanding ping. -/
def pongFrame7 : JVal := .obj (mkObj [("type", .str "pong"), ("id", .num 7)])

/-- The cached entity-registry mapping before a refresh, non-empty. -/
def oldReg : List (JVal × JVal) := [(.str "light.a", .str "oldrec")]

/-- A session holding `oldReg` as its entity-registry cache. -/
def regState : ClientState :=
  { readyState with store := ⟨[("entity_registry", oldReg)], [], none⟩ }

/-- A listing response whose result list is empty. -/
def emptyListMsg : JVal :=
  .obj (mkObj [("type", .str "result"), ("success", .bool true), ("result", .arr .nil)])

/-- A session caching one state record for `light.k`. -/
def scState : ClientState :=
  { readyState with store := ⟨[], [(.str "light.k", .str "onrec")], none⟩ }

/-- A `state_changed` event frame for `light.k` whose `new_state` is
null (the shape the server pushes when an entity is removed). -/
def nullStateEvt : JVal :=
  .obj (mkObj
    [("type", .str "event"),
     ("event", .obj (mkObj
       [("event_type", .str "state_changed"),
        ("data", .obj (mkObj
          [("entity_id", .str "light.k"), ("new_state", .null)]))]))])

/-- An `auth_invalid` frame. -/
def authInvalidFrame : JVal :=
  .obj (mkObj [("type", .str "auth_invalid"), ("message", .str "bad token")])

/-- An `entity_registry_updated` event frame. -/
def entRegEvt : JVal :=
  .obj (mkObj
    [("type", .str "event"),
     ("event", .obj (mkObj [("event_type", .str "entity_registry_updated")]))])

/-- A `result` frame with `success = false` for request id 4. -/
def failedResultFrame : JVal :=
  .obj (mkObj [("id", .num 4), ("type", .str "result"), ("success", .bool false)])

/-- A session with a pending callback registered under id 4. -/
def pendingState : ClientState :=
  { readyState with current_id := 5, callbacks := [(4, .userCB 0)] }

/-- A listing response with one entity-registry record. -/
def oneItemMsg : JVal :=
  .obj (mkObj [("result", .arr (.cons (.obj (mkObj [("entity_id", .str "light.b")])) .nil))])
/-- A non-null replacement state record for `light.k`. -/
def liveRec : JVal := .obj (mkObj [("entity_id", .str "light.k"), ("state", .str "off")])
/-- A `state_changed` event frame carrying `liveRec` as the new state. -/
def liveStateEvt : JVal :=
  .obj (mkObj
    [("type", .str "event"),
     ("event", .obj (mkObj
       [("event_type", .str "state_changed"),
        ("data", .obj (mkObj
          [("entity_id", .str "light.k"), ("new_state", liveRec)]))]))])
/-- An `entity_registry_updated` event object (the inner `event` dict). -/
def entRegEvtObj : JVal := .obj (mkObj [("event_type", .str "entity_registry_updated")])

theorem alookup_aset {κ α : Type} [DecidableEq κ] (l : List (κ × α)) (k k' : κ) (v : α) :
    alookup (aset l k v) k' = if k = k' then some v else alookup l k' := by
  induction l with
  | nil => by_cases h : k = k' <;> simp [aset, alookup, h]
  | cons hd tl ih =>
    obtain ⟨a, b⟩ := hd
    by_cases h1 : a = k <;> by_cases h2 : a = k' <;> by_cases h3 : k = k' <;>
      simp_all [aset, alookup]

theorem alookup_aerase_ne {κ α : Type} [DecidableEq κ] (l : List (κ × α)) (k k' : κ)
    (h : k ≠ k') : alookup (aerase l k) k' = alookup l k' := by
  induction l with
  | nil => simp [aerase]
  | cons hd tl ih =>
    obtain ⟨a, b⟩ := hd
    by_cases h1 : a = k <;> by_cases h2 : a = k' <;> simp_all [aerase, alookup]

/-- C9: a received payload that fails to parse as JSON is discarded
without any state change: the handler returns the state untouched
(connection handle, authenticated flag, pending callbacks, probe
tracker and caches included) and writes nothing to the socket. -/
theorem malformed_frame_is_noop (st : ClientState) :
    HassClient.handle_message st none = .ok (st, ([] : List Payload)) := rfl

/-- C2: while the session is not ready (no connection handle, or not
authenticated), `send_message` raises immediately: the state is
untouched — in particular the id counter and the pending-callback map —
and nothing is written to the socket. -/
theorem send_message_not_ready (st : ClientState) (p : Payload) (cb : Option Callback)
    (h : st.ws = false ∨ st.authenticated = false) :
    (HassClient.send_message st p cb).state = st ∧
    (HassClient.send_message st p cb).wire = [] ∧
    (∃ e, (HassClient.send_message st p cb).ret = .error e) ∧
    (HassClient.send_message st p cb).state.current_id = st.current_id ∧
    (HassClient.send_message st p cb).state.callbacks = st.callbacks := by
  rcases h with h | h
  · simp [HassClient.send_message, h]
  · cases hw : st.ws <;> simp [HassClient.send_message, h, hw]

/-- Witness for C2: a concrete unauthenticated session refuses a
`call_service` payload. -/
theorem send_message_not_ready_witness :
    ((HassClient.send_message { readyState with authenticated := false }
        [("type", .str "call_service")] none).state =
      { readyState with authenticated := false } ∧
    (HassClient.send_message { readyState with authenticated := false }
        [("type", .str "call_service")] none).wire = [] ∧
    (∃ e, (HassClient.send_message { readyState with authenticated := false }
        [("type", .str "call_service")] none).ret = .error e) ∧
    (HassClient.send_message { readyState with authenticated := false }
        [("type", .str "call_service")] none).state.current_id =
      ({ readyState with authenticated := false } : ClientState).current_id ∧
    (HassClient.send_message { readyState with authenticated := false }
        [("type", .str "call_service")] none).state.callbacks =
      ({ readyState with authenticated := false } : ClientState).callbacks) :=
  send_message_not_ready { readyState with authenticated := false }
    [("type", .str "call_service")] none (Or.inr rfl)

/-- Counterexample to C7: the pong handler clears the probe tracker
even when the pong's id (7) differs from the outstanding probe id (5);
the claim says a non-matching pong leaves it unchanged. -/
theorem pong_mismatch_clears_tracker_cex :
    HassClient.handle_message pongState (some pongFrame7) =
      .ok ({ pongState with last_ping_id := none }, []) ∧
    pongState.last_ping_id = some 5 := ⟨rfl, rfl⟩

/-- C7 as amended: handling any `pong` frame unconditionally clears the
probe tracker's outstanding probe id; only the pending-callback lookup
is matched by id. -/
theorem pong_clears_tracker (st st1 : ClientState) (d : JVal) (w : List Payload)
    (htype : jget d "type" = some (.str "pong"))
    (h : HassClient.handle_message st (some d) = .ok (st1, w)) :
    st1.last_ping_id = none := by
  simp only [HassClient.handle_message, HassClient.handle_data, htype] at h
  norm_num at h
  rcases hd : HassClient.dispatchById st d with e | ⟨st2, w2⟩ <;> rw [hd] at h
  · exact absurd h (by simp)
  · simp at h
    rw [← h.1]

/-- Witness for C7's amended theorem at a concrete pong frame. -/
theorem pong_clears_tracker_witness :
    (({ pongState with last_ping_id := none } : ClientState)).last_ping_id = none :=
  pong_clears_tracker pongState { pongState with last_ping_id := none } pongFrame7 [] rfl rfl

/-- Counterexample to C3: a listing response whose result list is empty
leaves the old non-empty registry mapping in place (the callback
early-returns on a falsy result), instead of replacing the cache entry
with the empty mapping as claimed. -/
theorem empty_listing_keeps_old_cache_cex :
    HassClient.runCallback (.registryListCB "entity_registry") emptyListMsg regState =
      .ok (regState, []) ∧
    alookup regState.store.registries "entity_registry" = some oldReg ∧
    oldReg ≠ [] := ⟨rfl, rfl, by decide⟩

/-- C3 as amended: when a listing response's result list is non-empty,
the registry's cache entry is replaced wholesale by a fresh mapping
keyed by the registry's id field (no merge with the old mapping, other
registries untouched); a response with an empty or missing result list
leaves the cache entry unchanged. -/
theorem registry_listing_refresh (rn idf : String) (st : ClientState) (msg : JVal)
    (hreg : alookup REGISTRIES rn = some idf) :
    (∀ items, jget msg "result" = some (.arr items) → items ≠ .nil →
      HassClient.runCallback (.registryListCB rn) msg st =
        .ok ({ st with store := { st.store with registries := (aset st.store.registries rn
            (HassClient.buildRegMap idf items.toList)) } }, []) ∧
      alookup (aset st.store.registries rn (HassClient.buildRegMap idf items.toList)) rn =
        some (HassClient.buildRegMap idf items.toList) ∧
      (∀ rn2, rn2 ≠ rn →
        alookup (aset st.store.registries rn (HassClient.buildRegMap idf items.toList)) rn2 =
          alookup st.store.registries rn2)) ∧
    (truthyO (jget msg "result") = false →
      HassClient.runCallback (.registryListCB rn) msg st = .ok (st, [])) := by
  constructor
  · intro items hres hne
    refine ⟨?_, ?_, ?_⟩
    · cases items with
      | nil => exact absurd rfl hne
      | cons a b =>
        simp [HassClient.runCallback, hreg, HassClient.on_list_result, hres, truthyO, truthy]
    · rw [alookup_aset]; simp
    · intro rn2 hne2
      rw [alookup_aset, if_neg (fun h => hne2 h.symm)]
  · intro hfal
    simp [HassClient.runCallback, hreg, HassClient.on_list_result, hfal]


/-- Witness for C3's amended theorem at a concrete non-empty listing. -/
theorem registry_listing_refresh_witness :
    HassClient.runCallback (.registryListCB "entity_registry") oneItemMsg regState =
      .ok ({ regState with store := { regState.store with
          registries := (aset regState.store.registries "entity_registry"
            (HassClient.buildRegMap "entity_id"
              (JList.cons (.obj (mkObj [("entity_id", .str "light.b")])) .nil).toList)) } },
        []) :=
  ((registry_listing_refresh "entity_registry" "entity_id" regState oneItemMsg rfl).1
    (JList.cons (.obj (mkObj [("entity_id", .str "light.b")])) .nil) rfl (by decide)).1

theorem state_changed_isEmpty : ("state_changed".isEmpty) = false := rfl

theorem state_changed_not_registry :
    pyEndsWith "state_changed" "_registry_updated" = false := by decide

/-- Counterexample to C8: a `state_changed` event whose `new_state` is
null overwrites nothing — the handler returns the state unchanged, and
the cached record for the event's entity keeps its old non-null value,
while the claim demands exactly one overwrite to the event's new state
record for every `state_changed` event. -/
theorem null_new_state_ignored_cex :
    HassClient.handle_message scState (some nullStateEvt) = .ok (scState, []) ∧
    alookup scState.store.states (.str "light.k") = some (.str "onrec") ∧
    (JVal.str "onrec") ≠ .null := ⟨rfl, rfl, by decide⟩

/-- C8 as amended: a `state_changed` event carrying a truthy entity
identifier and a non-null new state overwrites exactly the one State
Cache entry for that entity (every other entry and every Registry Cache
mapping unchanged); an event whose new state is null leaves the state
unchanged entirely. -/
theorem state_changed_updates_one_entry (st : ClientState) (d ev data eid ns : JVal)
    (hev : jget d "event" = some ev)
    (htype : jget ev "event_type" = some (.str "state_changed"))
    (hdata : jget ev "data" = some data)
    (heid : jget data "entity_id" = some eid) (htr : truthy eid = true)
    (hns : jget data "new_state" = some ns) (hnn : ns ≠ .null) :
    (HassClient.handle_event st d =
      .ok ({ st with store := { st.store with states := (aset st.store.states eid ns) } }, [])) ∧
    alookup (aset st.store.states eid ns) eid = some ns ∧
    (∀ k, k ≠ eid → alookup (aset st.store.states eid ns) k = alookup st.store.states k) ∧
    ({ st with store := { st.store with states := (aset st.store.states eid ns) } }
      : ClientState).store.registries = st.store.registries ∧
    (∀ st2 d2 ev2 data2, jget d2 "event" = some ev2 →
      jget ev2 "event_type" = some (.str "state_changed") →
      jget ev2 "data" = some data2 →
      jget data2 "new_state" = some JVal.null →
      HassClient.handle_event st2 d2 = .ok (st2, [])) := by
  refine ⟨?_, ?_, ?_, rfl, ?_⟩
  · simp [HassClient.handle_event, hev, htype, state_changed_isEmpty,
      state_changed_not_registry, HassClient.handle_state_changed_event,
      hdata, heid, htr, hns, hnn]
  · rw [alookup_aset]; simp
  · intro k hk
    rw [alookup_aset, if_neg (fun h => hk h.symm)]
  · intro st2 d2 ev2 data2 hev2 htype2 hdata2 hns2
    simp only [HassClient.handle_event, hev2, Option.getD_some, htype2,
      state_changed_isEmpty, state_changed_not_registry]
    norm_num
    simp [HassClient.handle_state_changed_event, hdata2, hns2]
    rcases jget data2 "entity_id" with _ | eid2
    · rfl
    · by_cases h2 : truthy eid2 = true <;> simp [h2]



/-- Witness for C8's amended theorem at a concrete live state change. -/
theorem state_changed_updates_one_entry_witness :
    HassClient.handle_event scState liveStateEvt =
      .ok ({ scState with store := { scState.store with
          states := (aset scState.store.states (.str "light.k") liveRec) } }, []) :=
  (state_changed_updates_one_entry scState liveStateEvt
    (.obj (mkObj
      [("event_type", .str "state_changed"),
       ("data", .obj (mkObj [("entity_id", .str "light.k"), ("new_state", liveRec)]))]))
    (.obj (mkObj [("entity_id", .str "light.k"), ("new_state", liveRec)]))
    (.str "light.k") liveRec rfl rfl rfl rfl rfl rfl (by decide)).1

theorem attempt_reconnect_manual_stop (st : ClientState) (ok : Bool)
    (h : st.manual_stop = true) :
    HassClient.attempt_reconnect st ok = HassClient.close_ws st := by
  simp [HassClient.attempt_reconnect, HassClient.close_ws, h]

theorem reconnectIter_stopped (st : ClientState) (oks : List Bool)
    (h : st.manual_stop = true) (hws : st.ws = false) :
    (HassClient.reconnectIter st oks).ws = false ∧
    (HassClient.reconnectIter st oks).manual_stop = true := by
  induction oks generalizing st with
  | nil => exact ⟨hws, h⟩
  | cons ok rest ih =>
    rw [HassClient.reconnectIter, attempt_reconnect_manual_stop st ok h]
    exact ih (HassClient.close_ws st) h rfl

/-- C6: an `auth_invalid` frame performs a full stop — stop signal set,
manual-stop flag set, handle closed, authenticated cleared — and every
subsequent reconnect step, whatever the connection oracle says, returns
without establishing: the session never regains a connection in that
run. -/
theorem auth_invalid_is_fatal (st : ClientState) (d : JVal) (oks : List Bool)
    (htype : jget d "type" = some (.str "auth_invalid")) :
    HassClient.handle_message st (some d) = .ok (HassClient.stop st, []) ∧
    (HassClient.stop st).stop_event = true ∧
    (HassClient.stop st).manual_stop = true ∧
    (HassClient.stop st).ws = false ∧
    (HassClient.stop st).authenticated = false ∧
    (HassClient.reconnectIter (HassClient.stop st) oks).ws = false ∧
    (HassClient.reconnectIter (HassClient.stop st) oks).manual_stop = true := by
  have hrec := reconnectIter_stopped (HassClient.stop st) oks rfl rfl
  refine ⟨?_, rfl, rfl, rfl, rfl, hrec.1, hrec.2⟩
  simp [HassClient.handle_message, HassClient.handle_data, htype]

/-- Witness for C6 at a concrete `auth_invalid` frame, with two further
reconnect attempts whose socket opens would both have succeeded. -/
theorem auth_invalid_is_fatal_witness :
    HassClient.handle_message readyState (some authInvalidFrame) =
      .ok (HassClient.stop readyState, []) ∧
    (HassClient.stop readyState).stop_event = true ∧
    (HassClient.stop readyState).manual_stop = true ∧
    (HassClient.stop readyState).ws = false ∧
    (HassClient.stop readyState).authenticated = false ∧
    (HassClient.reconnectIter (HassClient.stop readyState) [true, true]).ws = false ∧
    (HassClient.reconnectIter (HassClient.stop readyState) [true, true]).manual_stop
      = true :=
  auth_invalid_is_fatal readyState authInvalidFrame [true, true] rfl

theorem sendE_ok (st : ClientState) (p : Payload) (cb : Option Callback)
    (hws : st.ws = true) (hauth : st.authenticated = true) :
    HassClient.sendE st p cb = .ok
      ((match cb with
        | some c => { st with current_id := st.current_id + 1, callbacks := aset st.callbacks st.current_id c }
        | none => { st with current_id := st.current_id + 1 }),
       st.current_id, [aset p "id" (.num st.current_id)]) := by
  cases cb <;> simp [HassClient.sendE, HassClient.send_message, hws, hauth]

/-- C1: on a ping-loop tick with an authenticated connection, an
elapsed probe interval and an already-outstanding probe id, no new
probe is sent and exactly one reconnect attempt is made; moreover any
tick that does send a probe had no outstanding probe and makes no
reconnect attempt — so a second probe is never sent while one is
outstanding, and two consecutive unanswered probes have exactly one
reconnect cycle between them. -/
theorem single_outstanding_probe (st : ClientState) (now : Int) (ok : Bool) (pid : Int)
    (hws : st.ws = true) (hauth : st.authenticated = true)
    (helapsed : st.ping_interval ≤ now - st.last_ping_time)
    (hout : st.last_ping_id = some pid) :
    (HassClient.ping_tick st now ok).2.1 = [] ∧
    (HassClient.ping_tick st now ok).2.2 = 1 ∧
    (∀ st2 now2 ok2, (HassClient.ping_tick st2 now2 ok2).2.1 ≠ [] →
      st2.last_ping_id = none ∧ (HassClient.ping_tick st2 now2 ok2).2.2 = 0) := by
  refine ⟨?_, ?_, ?_⟩
  · simp [HassClient.ping_tick, hws, hauth, helapsed, hout]
  · simp [HassClient.ping_tick, hws, hauth, helapsed, hout]
  · intro st2 now2 ok2 hne
    by_cases hw2 : st2.ws = false
    · simp [HassClient.ping_tick, hw2] at hne
    · rw [Bool.not_eq_false] at hw2
      by_cases hc2 : st2.ping_interval ≤ now2 - st2.last_ping_time ∧
          st2.authenticated = true
      · rcases hl : st2.last_ping_id with _ | pid2
        · refine ⟨rfl, ?_⟩
          simp [HassClient.ping_tick, hw2, hc2.1, hc2.2, hl,
            HassClient.sendE, HassClient.send_message]
        · simp [HassClient.ping_tick, hw2, hc2.1, hc2.2, hl] at hne
      · simp [HassClient.ping_tick, hw2, hc2] at hne

/-- Witness for C1 at a concrete tick with outstanding probe id 5. -/
theorem single_outstanding_probe_witness :
    (HassClient.ping_tick pongState 20 true).2.1 = [] ∧
    (HassClient.ping_tick pongState 20 true).2.2 = 1 :=
  ⟨(single_outstanding_probe pongState 20 true 5 rfl rfl (by decide) rfl).1,
   (single_outstanding_probe pongState 20 true 5 rfl rfl (by decide) rfl).2.1⟩

theorem strData_append (a b : String) : (a ++ b).data = a.data ++ b.data := rfl

theorem listT_inj (a b : String)
    (h : "config/" ++ a ++ "/list" = "config/" ++ b ++ "/list") : a = b := by
  have h2 := congrArg String.data h
  simp [strData_append] at h2
  exact String.ext h2

theorem listT_ne_sub (a : String) : "config/" ++ a ++ "/list" ≠ "subscribe_events" := by
  intro h
  have h2 := congrArg String.data h
  simp [strData_append] at h2

theorem listT_ne_gst (a : String) : "config/" ++ a ++ "/list" ≠ "get_states" := by
  intro h
  have h2 := congrArg String.data h
  simp [strData_append] at h2

theorem listT_ne_gsv (a : String) : "config/" ++ a ++ "/list" ≠ "get_services" := by
  intro h
  have h2 := congrArg String.data h
  simp [strData_append] at h2

theorem eru_isEmpty : ("entity_registry_updated".isEmpty) = false := rfl

theorem eru_ends : pyEndsWith "entity_registry_updated" "_registry_updated" = true := by
  decide

theorem eru_replace : pyReplace "entity_registry_updated" "_updated" "" = "entity_registry" := by
  decide

/-- C5: an event frame with `event_type = "entity_registry_updated"`
issues exactly one `config/entity_registry/list` request and exactly
one `get_states` request, and no listing request for any other registry
kind. -/
theorem entity_registry_event_refresh (st : ClientState) (d ev : JVal)
    (hws : st.ws = true) (hauth : st.authenticated = true)
    (hev : jget d "event" = some ev)
    (htype : jget ev "event_type" = some (.str "entity_registry_updated")) :
    ∃ st2, HassClient.handle_event st d = .ok (st2,
      [[("type", JVal.str "config/entity_registry/list"), ("id", JVal.num st.current_id)],
       [("type", JVal.str "get_states"), ("id", JVal.num (st.current_id + 1))]]) ∧
    countType
      [[("type", JVal.str "config/entity_registry/list"), ("id", JVal.num st.current_id)],
       [("type", JVal.str "get_states"), ("id", JVal.num (st.current_id + 1))]]
      "config/entity_registry/list" = 1 ∧
    countType
      [[("type", JVal.str "config/entity_registry/list"), ("id", JVal.num st.current_id)],
       [("type", JVal.str "get_states"), ("id", JVal.num (st.current_id + 1))]]
      "get_states" = 1 ∧
    (∀ rn, rn ≠ "entity_registry" →
      countType
        [[("type", JVal.str "config/entity_registry/list"), ("id", JVal.num st.current_id)],
         [("type", JVal.str "get_states"), ("id", JVal.num (st.current_id + 1))]]
        ("config/" ++ rn ++ "/list") = 0) := by
  refine ⟨{ st with current_id := st.current_id + 1 + 1, callbacks := aset (aset st.callbacks st.current_id (Callback.registryListCB "entity_registry")) (st.current_id + 1) Callback.getStatesCB }, ?_, ?_, ?_, ?_⟩
  · simp [HassClient.handle_event, hev, htype, eru_isEmpty, eru_ends, eru_replace,
      HassClient.refresh_registryE, HassClient.get_statesE, HassClient.sendE,
      HassClient.send_message, hws, hauth, aset, REGISTRIES, alookup]
  · simp [countType, typeOf, alookup]
  · simp [countType, typeOf, alookup]
  · intro rn hrn
    simp [countType, typeOf, alookup, List.count_eq_zero]
    exact ⟨fun h => hrn (listT_inj rn "entity_registry" h), listT_ne_gst rn⟩


/-- Witness for C5 at a concrete event frame on a ready session. -/
theorem entity_registry_event_refresh_witness :
    ∃ st2, HassClient.handle_event readyState entRegEvt =
      .ok (st2,
        [[("type", JVal.str "config/entity_registry/list"),
          ("id", JVal.num readyState.current_id)],
         [("type", JVal.str "get_states"),
          ("id", JVal.num (readyState.current_id + 1))]]) := by
  obtain ⟨st2, h1, _⟩ :=
    entity_registry_event_refresh readyState entRegEvt entRegEvtObj rfl rfl rfl rfl
  exact ⟨st2, h1⟩

theorem refreshAllG_ok (regs : List (String × String)) (st : ClientState)
    (hws : st.ws = true) (hauth : st.authenticated = true) :
    ∃ st2 w, HassClient.refreshAllG regs st = .ok (st2, w) ∧
      st2.ws = true ∧ st2.authenticated = true ∧
      w.filterMap typeOf = regs.map (fun r => "config/" ++ r.1 ++ "/list") := by
  induction regs generalizing st with
  | nil => exact ⟨st, [], rfl, hws, hauth, rfl⟩
  | cons hd rest ih =>
    obtain ⟨rn, idf⟩ := hd
    have h1 := sendE_ok st [("type", JVal.str ("config/" ++ rn ++ "/list"))]
      (some (.registryListCB rn)) hws hauth
    obtain ⟨st2, w2, hrec, hw2, ha2, hty⟩ :=
      ih { st with current_id := st.current_id + 1, callbacks := aset st.callbacks st.current_id (Callback.registryListCB rn) } hws hauth
    refine ⟨st2,
      [("type", JVal.str ("config/" ++ rn ++ "/list")), ("id", JVal.num st.current_id)] :: w2,
      ?_, hw2, ha2, ?_⟩
    · simp [HassClient.refreshAllG, HassClient.refresh_registryE, h1, hrec, aset]
    · simp [typeOf, alookup, hty]

/-- C4: for every configuration of registry kinds, the post-auth
bootstrap (which an `auth_ok` frame triggers) issues exactly one
listing request per configured registry kind, exactly one `get_states`
request and exactly one `get_services` request. -/
theorem bootstrap_request_counts (regs : List (String × String)) (st : ClientState)
    (hws : st.ws = true) (hnd : (regs.map Prod.fst).Nodup) :
    ∃ st4 w, HassClient.post_auth_initG regs st = .ok (st4, w) ∧
      (∀ rn, rn ∈ regs.map Prod.fst → countType w ("config/" ++ rn ++ "/list") = 1) ∧
      countType w "get_states" = 1 ∧
      countType w "get_services" = 1 ∧
      (∀ st5 d, jget d "type" = some (JVal.str "auth_ok") →
        HassClient.handle_message st5 (some d) = HassClient.post_auth_init st5) := by
  obtain ⟨st2, w2, hrec, hw2, ha2, hty⟩ := refreshAllG_ok regs
    { st with authenticated := true, current_id := st.current_id + 1 } hws rfl
  rw [hws] at hrec
  have hg : Function.Injective (fun a => "config/" ++ a ++ "/list") :=
    fun a b h => listT_inj a b h
  have hmm : List.map (fun a => "config/" ++ a ++ "/list") (regs.map Prod.fst) =
      regs.map (fun r => "config/" ++ r.1 ++ "/list") := by
    rw [List.map_map]; rfl
  rw [← hmm] at hty
  refine ⟨{ st2 with current_id := st2.current_id + 1 + 1, callbacks := aset (aset st2.callbacks st2.current_id Callback.getStatesCB) (st2.current_id + 1) Callback.servicesCB },
    [("type", JVal.str "subscribe_events"), ("id", JVal.num st.current_id)] ::
      (w2 ++ [[("type", JVal.str "get_states"), ("id", JVal.num st2.current_id)],
              [("type", JVal.str "get_services"), ("id", JVal.num (st2.current_id + 1))]]),
    ?_, ?_, ?_, ?_, ?_⟩
  · simp [HassClient.post_auth_initG, HassClient.get_statesE, HassClient.sendE,
      HassClient.send_message, hws, hrec, hw2, ha2, aset]
  · intro rn hrn
    have hcm := List.count_map_of_injective (regs.map Prod.fst)
      (fun a => "config/" ++ a ++ "/list") hg rn
    simp only [countType, List.filterMap_cons, List.filterMap_append, typeOf, alookup,
      if_pos, List.filterMap_nil, hty]
    simp [List.count_cons, List.count_append, hcm, List.count_eq_one_of_mem hnd hrn,
      listT_ne_gst rn, listT_ne_gsv rn, listT_ne_sub rn]
    rw [← List.map_map, hcm]
    exact List.count_eq_one_of_mem hnd hrn
  · have hz : List.count "get_states"
        (List.map (fun a => "config/" ++ a ++ "/list") (regs.map Prod.fst)) = 0 := by
      rw [List.count_eq_zero]
      intro hmem
      obtain ⟨a, _, h⟩ := List.mem_map.mp hmem
      exact listT_ne_gst a h
    simp only [countType, List.filterMap_cons, List.filterMap_append, typeOf, alookup,
      List.filterMap_nil, hty]
    simp [List.count_cons, List.count_append, hz]
    rw [← List.map_map]
    exact hz
  · have hz : List.count "get_services"
        (List.map (fun a => "config/" ++ a ++ "/list") (regs.map Prod.fst)) = 0 := by
      rw [List.count_eq_zero]
      intro hmem
      obtain ⟨a, _, h⟩ := List.mem_map.mp hmem
      exact listT_ne_gsv a h
    simp only [countType, List.filterMap_cons, List.filterMap_append, typeOf, alookup,
      List.filterMap_nil, hty]
    simp [List.count_cons, List.count_append, hz]
    rw [← List.map_map]
    exact hz
  · intro st5 d htype
    simp [HassClient.handle_message, HassClient.handle_data, htype]

/-- Witness for C4 at the source's REGISTRIES table on a ready session. -/
theorem bootstrap_request_counts_witness :
    ∃ st4 w, HassClient.post_auth_initG REGISTRIES readyState = .ok (st4, w) ∧
      countType w ("config/" ++ "entity_registry" ++ "/list") = 1 ∧
      countType w "get_states" = 1 ∧
      countType w "get_services" = 1 := by
  obtain ⟨st4, w, h1, h2, h3, h4, _⟩ :=
    bootstrap_request_counts REGISTRIES readyState rfl (by decide)
  exact ⟨st4, w, h1, h2 "entity_registry" (by decide), h3, h4⟩

theorem alookup_aset_isSome {κ α : Type} [DecidableEq κ] (l : List (κ × α)) (k j : κ)
    (v c : α) (h : alookup l j = some c) : ∃ c2, alookup (aset l k v) j = some c2 := by
  rw [alookup_aset]
  by_cases hk : k = j
  · exact ⟨v, by simp [hk]⟩
  · exact ⟨c, by simp [hk, h]⟩

theorem sendE_keeps (st : ClientState) (p : Payload) (cb : Option Callback)
    (st1 : ClientState) (i : Int) (w : List Payload) (j : Int) (c : Callback)
    (h : HassClient.sendE st p cb = .ok (st1, i, w))
    (hj : alookup st.callbacks j = some c) :
    ∃ c2, alookup st1.callbacks j = some c2 := by
  unfold HassClient.sendE HassClient.send_message at h
  by_cases h1 : st.ws = false
  · simp [h1] at h
  · by_cases h2 : st.authenticated = false
    · simp [h1, h2] at h
    · cases cb with
      | none =>
        simp [h1, h2] at h
        obtain ⟨h3, -, -⟩ := h
        rw [← h3]
        exact ⟨c, hj⟩
      | some c0 =>
        simp [h1, h2] at h
        obtain ⟨h3, -, -⟩ := h
        rw [← h3]
        exact alookup_aset_isSome st.callbacks st.current_id j c0 c hj

theorem refresh_registryE_keeps (st : ClientState) (rn : String) (st1 : ClientState)
    (w : List Payload) (j : Int) (c : Callback)
    (h : HassClient.refresh_registryE st rn = .ok (st1, w))
    (hj : alookup st.callbacks j = some c) :
    ∃ c2, alookup st1.callbacks j = some c2 := by
  unfold HassClient.refresh_registryE at h
  rcases hs : HassClient.sendE st [("type", JVal.str ("config/" ++ rn ++ "/list"))]
      (some (.registryListCB rn)) with e | ⟨st2, i2, w2⟩ <;> rw [hs] at h
  · exact absurd h (by simp)
  · simp at h
    obtain ⟨h3, -⟩ := h
    rw [← h3]
    exact sendE_keeps st _ _ st2 i2 w2 j c hs hj

theorem get_statesE_keeps (st : ClientState) (st1 : ClientState)
    (w : List Payload) (j : Int) (c : Callback)
    (h : HassClient.get_statesE st = .ok (st1, w))
    (hj : alookup st.callbacks j = some c) :
    ∃ c2, alookup st1.callbacks j = some c2 := by
  unfold HassClient.get_statesE at h
  rcases hs : HassClient.sendE st [("type", JVal.str "get_states")]
      (some .getStatesCB) with e | ⟨st2, i2, w2⟩ <;> rw [hs] at h
  · exact absurd h (by simp)
  · simp at h
    obtain ⟨h3, -⟩ := h
    rw [← h3]
    exact sendE_keeps st _ _ st2 i2 w2 j c hs hj

theorem refreshAllG_keeps (regs : List (String × String)) (st : ClientState)
    (st1 : ClientState) (w : List Payload) (j : Int) (c : Callback)
    (h : HassClient.refreshAllG regs st = .ok (st1, w))
    (hj : alookup st.callbacks j = some c) :
    ∃ c2, alookup st1.callbacks j = some c2 := by
  induction regs generalizing st w c with
  | nil =>
    simp [HassClient.refreshAllG] at h
    rw [← h.1]
    exact ⟨c, hj⟩
  | cons hd rest ih =>
    obtain ⟨rn, idf⟩ := hd
    unfold HassClient.refreshAllG at h
    rcases hr : HassClient.refresh_registryE st rn with e | ⟨stA, wA⟩ <;> rw [hr] at h
    · exact absurd h (by simp)
    · dsimp only at h
      rcases hrest : HassClient.refreshAllG rest stA with e | ⟨stB, wB⟩ <;>
        rw [hrest] at h
      · exact absurd h (by simp)
      · simp at h
        obtain ⟨h3, -⟩ := h
        rw [h3] at hrest
        obtain ⟨cA, hA⟩ := refresh_registryE_keeps st rn stA wA j c hr hj
        exact ih stA wB cA hrest hA

theorem runCallback_keeps (cb : Callback) (msg : JVal) (st : ClientState)
    (st1 : ClientState) (w : List Payload) (j : Int) (c : Callback)
    (h : HassClient.runCallback cb msg st = .ok (st1, w))
    (hj : alookup st.callbacks j = some c) :
    ∃ c2, alookup st1.callbacks j = some c2 := by
  cases cb with
  | getStatesCB =>
    simp [HassClient.runCallback, HassClient.handle_get_states] at h
    rw [← h.1]
    exact ⟨c, hj⟩
  | registryListCB rn =>
    rcases hl : alookup REGISTRIES rn with _ | idf <;>
      simp [HassClient.runCallback, hl] at h
    rw [← h.1]
    unfold HassClient.on_list_result
    split
    · exact ⟨c, hj⟩
    · split
      · exact ⟨c, hj⟩
      · exact ⟨c, hj⟩
  | servicesCB =>
    simp [HassClient.runCallback] at h
    rw [← h.1]
    exact ⟨c, hj⟩
  | updateRegistryCB rn hasUser =>
    simp only [HassClient.runCallback] at h
    rcases hr : HassClient.refresh_registryE st rn with e | ⟨stA, wA⟩ <;> rw [hr] at h
    · exact absurd h (by simp)
    · simp at h
      rw [← h.1]
      exact refresh_registryE_keeps st rn stA wA j c hr hj
  | userCB tag =>
    simp [HassClient.runCallback] at h
    rw [← h.1]
    exact ⟨c, hj⟩

theorem hsce_callbacks (e : JVal) (st : ClientState) :
    (HassClient.handle_state_changed_event e st).callbacks = st.callbacks := by
  simp only [HassClient.handle_state_changed_event]
  repeat' split
  all_goals rfl

theorem handle_event_keeps (st : ClientState) (d : JVal) (st1 : ClientState)
    (w : List Payload) (j : Int) (c : Callback)
    (h : HassClient.handle_event st d = .ok (st1, w))
    (hj : alookup st.callbacks j = some c) :
    ∃ c2, alookup st1.callbacks j = some c2 := by
  simp only [HassClient.handle_event] at h
  split at h
  · rename_i s hety
    split at h
    · simp at h
      rw [← h.1]
      exact ⟨c, hj⟩
    · split at h
      · split at h
        · split at h
          · exact absurd h (by simp)
          · rename_i stA wA hr
            split at h
            · split at h
              · exact absurd h (by simp)
              · rename_i stB wB hgs
                simp at h
                obtain ⟨h3, -⟩ := h
                rw [← h3]
                obtain ⟨cA, hA⟩ := refresh_registryE_keeps st _ stA wA j c hr hj
                exact get_statesE_keeps stA stB wB j cA hgs hA
            · simp at h
              obtain ⟨h3, -⟩ := h
              rw [← h3]
              exact refresh_registryE_keeps st _ stA wA j c hr hj
        · simp at h
          rw [← h.1]
          exact ⟨c, hj⟩
      · split at h
        · simp at h
          rw [← h.1, hsce_callbacks]
          exact ⟨c, hj⟩
        · simp at h
          rw [← h.1]
          exact ⟨c, hj⟩
  · rename_i v hne hety
    split at h
    · exact absurd h (by simp)
    · simp at h
      rw [← h.1]
      exact ⟨c, hj⟩
  · simp at h
    rw [← h.1]
    exact ⟨c, hj⟩

theorem post_auth_keeps (regs : List (String × String)) (st st1 : ClientState)
    (w : List Payload) (j : Int) (c : Callback)
    (h : HassClient.post_auth_initG regs st = .ok (st1, w))
    (hj : alookup st.callbacks j = some c) :
    ∃ c2, alookup st1.callbacks j = some c2 := by
  simp only [HassClient.post_auth_initG] at h
  split at h
  · exact absurd h (by simp)
  · rename_i stA iA wA hsA
    split at h
    · exact absurd h (by simp)
    · rename_i stB wB hrB
      split at h
      · exact absurd h (by simp)
      · rename_i stC wC hgC
        split at h
        · exact absurd h (by simp)
        · rename_i stD iD wD hsD
          simp at h
          obtain ⟨h3, -⟩ := h
          rw [← h3]
          have hj0 : alookup ({ st with authenticated := true } : ClientState).callbacks j
              = some c := hj
          obtain ⟨cA, hA⟩ := sendE_keeps _ _ _ stA iA wA j c hsA hj0
          obtain ⟨cB, hB⟩ := refreshAllG_keeps regs stA stB wB j cA hrB hA
          obtain ⟨cC, hC⟩ := get_statesE_keeps stB stC wC j cB hgC hB
          exact sendE_keeps stC _ _ stD iD wD j cC hsD hC

theorem numId_eq (o : Option JVal) (j : Int) (h : HassClient.numId o = some j) :
    o = some (.num j) := by
  rcases o with _ | v
  · simp [HassClient.numId] at h
  · cases v <;> simp_all [HassClient.numId]

theorem dispatchById_removal (st st1 : ClientState) (d : JVal) (w : List Payload)
    (i : Int) (cb : Callback)
    (h : HassClient.dispatchById st d = .ok (st1, w))
    (hin : alookup st.callbacks i = some cb)
    (hout : alookup st1.callbacks i = none) :
    jget d "id" = some (.num i) := by
  unfold HassClient.dispatchById at h
  split at h
  · rename_i j hnum
    split at h
    · rename_i cbj hcbj
      by_cases hij : i = j
      · rw [hij]
        exact numId_eq (jget d "id") j hnum
      · have hpre : alookup (aerase st.callbacks j) i = some cb := by
          rw [alookup_aerase_ne st.callbacks j i (fun hh => hij hh.symm)]
          exact hin
        obtain ⟨c2, hc2⟩ := runCallback_keeps cbj d _ st1 w i cb h hpre
        rw [hout] at hc2
        cases hc2
    · simp at h
      rw [← h.1] at hout
      rw [hin] at hout
      cases hout
  · simp at h
    rw [← h.1] at hout
    rw [hin] at hout
    cases hout

theorem attempt_reconnect_callbacks (st : ClientState) (ok : Bool) :
    (HassClient.attempt_reconnect st ok).callbacks = st.callbacks := by
  simp only [HassClient.attempt_reconnect, HassClient.close_ws]
  repeat' split
  all_goals rfl

theorem stop_callbacks (st : ClientState) :
    (HassClient.stop st).callbacks = st.callbacks := rfl

theorem ping_tick_callbacks (st : ClientState) (now : Int) (ok : Bool) :
    (HassClient.ping_tick st now ok).1.callbacks = st.callbacks := by
  by_cases h1 : st.ws = false
  · simp [HassClient.ping_tick, h1, attempt_reconnect_callbacks]
  · by_cases h2 : st.ping_interval ≤ now - st.last_ping_time ∧ st.authenticated = true
    · rcases h3 : st.last_ping_id with _ | pid
      · simp [HassClient.ping_tick, h1, h2.1, h2.2, h3, HassClient.sendE,
          HassClient.send_message]
      · simp [HassClient.ping_tick, h1, h2.1, h2.2, h3, attempt_reconnect_callbacks]
    · simp [HassClient.ping_tick, h1, h2]

/-- C10: a `result` frame whose `success` field is false leaves the
handler state completely unchanged — its registered pending callback is
neither invoked nor removed and the entry stays in the map — and the
only operations that ever remove a pending callback are handling a
pong, a successful result, or a non-result frame whose id matches it
(reconnects, stops and ping ticks never touch the map). -/
theorem failed_result_is_dropped :
    (∀ st d, jget d "type" = some (JVal.str "result") →
      jget d "success" = some (JVal.bool false) →
      HassClient.handle_message st (some d) = .ok (st, [])) ∧
    (∀ st d st1 w i cb, HassClient.handle_message st (some d) = .ok (st1, w) →
      alookup st.callbacks i = some cb → alookup st1.callbacks i = none →
      jget d "id" = some (JVal.num i) ∧
      (jget d "type" = some (JVal.str "pong") ∨
       (jget d "type" = some (JVal.str "result") ∧ truthyO (jget d "success") = true) ∨
       jget d "type" ≠ some (JVal.str "result"))) ∧
    (∀ st ok, (HassClient.attempt_reconnect st ok).callbacks = st.callbacks) ∧
    (∀ st, (HassClient.stop st).callbacks = st.callbacks) ∧
    (∀ st now ok, (HassClient.ping_tick st now ok).1.callbacks = st.callbacks) := by
  refine ⟨?_, ?_, attempt_reconnect_callbacks, stop_callbacks, ping_tick_callbacks⟩
  · intro st d ht hs
    simp [HassClient.handle_message, HassClient.handle_data, ht, hs, truthyO, truthy]
  · intro st d st1 w i cb h hin hout
    simp only [HassClient.handle_message, HassClient.handle_data] at h
    by_cases t1 : jget d "type" = some (JVal.str "auth_required")
    · rw [if_pos t1] at h
      unfold HassClient.send_auth at h
      split at h <;> simp at h <;> rw [← h.1] at hout <;> rw [hin] at hout <;> cases hout
    · rw [if_neg t1] at h
      by_cases t2 : jget d "type" = some (JVal.str "auth_ok")
      · rw [if_pos t2] at h
        obtain ⟨c2, hc2⟩ := post_auth_keeps REGISTRIES st st1 w i cb h hin
        rw [hout] at hc2
        cases hc2
      · rw [if_neg t2] at h
        by_cases t3 : jget d "type" = some (JVal.str "auth_invalid")
        · rw [if_pos t3] at h
          simp at h
          rw [← h.1] at hout
          rw [stop_callbacks] at hout
          rw [hin] at hout
          cases hout
        · rw [if_neg t3] at h
          by_cases t4 : jget d "type" = some (JVal.str "pong")
          · rw [if_pos t4] at h
            rcases hdisp : HassClient.dispatchById st d with e | ⟨stP, wP⟩ <;>
              rw [hdisp] at h
            · exact absurd h (by simp)
            · simp at h
              obtain ⟨h3, -⟩ := h
              rw [← h3] at hout
              exact ⟨dispatchById_removal st stP d wP i cb hdisp hin hout, Or.inl t4⟩
          · rw [if_neg t4] at h
            by_cases t5 : jget d "type" = some (JVal.str "result")
            · rw [if_pos t5] at h
              by_cases t6 : truthyO (jget d "success") = true
              · rw [if_pos t6] at h
                exact ⟨dispatchById_removal st st1 d w i cb h hin hout,
                  Or.inr (Or.inl ⟨t5, t6⟩)⟩
              · rw [if_neg t6] at h
                simp at h
                rw [← h.1] at hout
                rw [hin] at hout
                cases hout
            · rw [if_neg t5] at h
              by_cases t7 : jget d "type" = some (JVal.str "event")
              · rw [if_pos t7] at h
                obtain ⟨c2, hc2⟩ := handle_event_keeps st d st1 w i cb h hin
                rw [hout] at hc2
                cases hc2
              · rw [if_neg t7] at h
                exact ⟨dispatchById_removal st st1 d w i cb h hin hout, Or.inr (Or.inr t5)⟩

/-- Witness for C10 at a concrete failed result frame whose id 4 has a
registered pending callback. -/
theorem failed_result_is_dropped_witness :
    HassClient.handle_message pendingState (some failedResultFrame) =
      .ok (pendingState, []) :=
  failed_result_is_dropped.1 pendingState failedResultFrame rfl rfl
